import Mathlib

/-!
A shallow embedding of the "JavaScript Errors Notifier" browser extension
(src/content.js, src/background.js, src/popup.js) and theorems about its
error buffer, message relay, ignored-URL set, host extraction, HTML
escaping, 404 handling and popup rendering.

Conventions: JavaScript strings are Lean `String`s (lists of characters);
machine integers do not occur.  Code that can throw is modelled with
`Option` (`none` = an uncaught exception).  The asynchronous storage reads
(`getStorageValue`) are modelled by a `Config` record holding the resolved
option values, with the defaults taken from `initDefaultOptions` and from
the per-call-site default arguments.  The regular expressions of
background.js are modelled as executable functions on `List Char` that
follow JavaScript's leftmost-match backtracking semantics.
-/

/-- One detected error record, as built by the content script's error
handlers and consumed by the service worker (`text`, `url`, `line`, `col`,
optional `stack`, and the `is404` flag marking failed sub-resource loads). -/
structure ErrorRecord where
  text : String
  url : String
  line : Option Nat := none
  col : Option Nat := none
  stack : Option String := none
  is404 : Bool := false
deriving DecidableEq, Repr

/-- The dedup identity tuple `(text, url, line, col)` named by the spec. -/
def dedupKey (e : ErrorRecord) : String × String × Option Nat × Option Nat :=
  (e.text, e.url, e.line, e.col)

/-- content.js `handleNewError`, buffer part: `errors.push(error)` followed
by `if(errors.length > 10) errors.shift()`. -/
def ingestBuffer (errs : List ErrorRecord) (e : ErrorRecord) : List ErrorRecord :=
  let errs1 := errs ++ [e]
  if errs1.length > 10 then errs1.tail else errs1

/-- The runtime message sent by content.js `handleNewError`:
`{_errors: true, errors: errors, url: window.location.href}`. -/
structure RelayMessage where
  errors : List ErrorRecord
  url : String
deriving DecidableEq, Repr

/-- content.js `handleNewError`: update the buffer, then synchronously send
one runtime message carrying the whole current buffer and the page URL. -/
def handleNewError (pageUrl : String) (errs : List ErrorRecord) (e : ErrorRecord) :
    List ErrorRecord × RelayMessage :=
  let b := ingestBuffer errs e
  (b, ⟨b, pageUrl⟩)

/-- Feed a sequence of records through `handleNewError`, collecting the
messages sent along the way. -/
def relayProcess (pageUrl : String) (errs : List ErrorRecord) :
    List ErrorRecord → List ErrorRecord × List RelayMessage
  | [] => (errs, [])
  | e :: rest =>
    let p := handleNewError pageUrl errs e
    let q := relayProcess pageUrl p.1 rest
    (q.1, p.2 :: q.2)

/-! ### background.js: host extraction

`getBaseHostByUrl` applies three regular expressions:

* `localUrlRegexp = /(file:\/\/.*)|(:\/\/[^.:]+([\/?:]|$))/`
* `rootHostRegexp = /:\/\/(([\w-]+\.\w+)|(\d+\.\d+\.\d+\.\d+)|(\[[\w:]+\]))([\/?:]|$)/`
* `subDomainRegexp = /:\/\/([^\/]*\.([\w-]+\.\w+))([\/?:]|$)/`

and returns `'localhost'` if the first one matches, otherwise group 1 of
the first of the other two that matches; if neither matches it indexes
`null`, throwing a TypeError (modelled as `none`). -/

/-- JavaScript `\w` (no unicode flag): ASCII letters, digits, underscore. -/
def isWordChar (c : Char) : Bool := c.isAlphanum || c == '_'

/-- The terminator class `[\/?:]` shared by the three host regexps. -/
def isTermChar (c : Char) : Bool := c == '/' || c == '?' || c == ':'

/-- `[^.:]+([\/?:]|$)` after at least one char has been consumed: either a
terminator (or end of input) is reached, or another non-`.`/`:` char is
consumed.  (Backtracking of `[^.:]+` is the disjunction.) -/
def localTail : List Char → Bool
  | [] => true
  | c :: rest => isTermChar c || (if c == '.' || c == ':' then false else localTail rest)

/-- `[^.:]+([\/?:]|$)`: at least one char not in `{., :}`, then `localTail`. -/
def localBody : List Char → Bool
  | [] => false
  | c :: rest => if c == '.' || c == ':' then false else localTail rest

/-- `localUrlRegexp.exec(url)` as a boolean: some suffix starts with
`file://`, or some suffix starts with `://` followed by `localBody`. -/
def localExec : List Char → Bool
  | [] => false
  | c :: rest =>
    "file://".toList.isPrefixOf (c :: rest)
    || ("://".toList.isPrefixOf (c :: rest) && localBody rest.tail.tail)
    || localExec rest

/-- `([\w-]+\.\w+)([\/?:]|$)` anchored at the head of `s`; returns the
matched `[\w-]+\.\w+` part.  The greedy runs need no backtracking because
`.` is not in `[\w-]` and the terminators are not in `\w`. -/
def innerDomAt (s : List Char) : Option (List Char) :=
  let r1 := s.takeWhile (fun c => isWordChar c || c == '-')
  if r1.isEmpty then none
  else
    match s.drop r1.length with
    | '.' :: s2 =>
      let r2 := s2.takeWhile isWordChar
      if r2.isEmpty then none
      else
        match s2.drop r2.length with
        | [] => some (r1 ++ '.' :: r2)
        | c :: _ => if isTermChar c then some (r1 ++ '.' :: r2) else none
    | _ => none

/-- `(\d+\.\d+\.\d+\.\d+)([\/?:]|$)` anchored at the head of `s`. -/
def ipv4At (s : List Char) : Option (List Char) :=
  let d1 := s.takeWhile Char.isDigit
  if d1.isEmpty then none
  else
    match s.drop d1.length with
    | '.' :: s2 =>
      let d2 := s2.takeWhile Char.isDigit
      if d2.isEmpty then none
      else
        match s2.drop d2.length with
        | '.' :: s3 =>
          let d3 := s3.takeWhile Char.isDigit
          if d3.isEmpty then none
          else
            match s3.drop d3.length with
            | '.' :: s4 =>
              let d4 := s4.takeWhile Char.isDigit
              if d4.isEmpty then none
              else
                let host := d1 ++ '.' :: d2 ++ '.' :: d3 ++ '.' :: d4
                match s4.drop d4.length with
                | [] => some host
                | c :: _ => if isTermChar c then some host else none
            | _ => none
        | _ => none
    | _ => none

/-- `(\[[\w:]+\])([\/?:]|$)` anchored at the head of `s`. -/
def bracketHostAt (s : List Char) : Option (List Char) :=
  match s with
  | '[' :: s1 =>
    let r := s1.takeWhile (fun c => isWordChar c || c == ':')
    if r.isEmpty then none
    else
      match s1.drop r.length with
      | ']' :: s2 =>
        let host := '[' :: (r ++ [']'])
        match s2 with
        | [] => some host
        | c :: _ => if isTermChar c then some host else none
      | _ => none
  | _ => none

/-- Group 1 of `rootHostRegexp` anchored right after a `://`: the three
alternatives in source order. -/
def rootHostAt (s : List Char) : Option (List Char) :=
  match innerDomAt s with
  | some h => some h
  | none =>
    match ipv4At s with
    | some h => some h
    | none => bracketHostAt s

/-- `rootHostRegexp.exec(url)`: scan for the leftmost `://` position at
which the anchored pattern matches; return capture group 1. -/
def rootHostExec : List Char → Option (List Char)
  | [] => none
  | c :: rest =>
    if "://".toList.isPrefixOf (c :: rest) then
      match rootHostAt rest.tail.tail with
      | some h => some h
      | none => rootHostExec rest
    else rootHostExec rest

/-- One backtracking attempt of `subDomainRegexp`'s group 1 with the greedy
`[^\/]*` consuming exactly `k` characters: require a `.` at position `k`
followed by `[\w-]+\.\w+` and a terminator. -/
def subCheckAt (s : List Char) (k : Nat) : Option (List Char) :=
  match s.drop k with
  | '.' :: s2 => (innerDomAt s2).map (fun inner => s.take k ++ '.' :: inner)
  | _ => none

/-- Greedy backtracking for `[^\/]*`: try the longest prefix first. -/
def subTryK (s : List Char) : Nat → Option (List Char)
  | 0 => subCheckAt s 0
  | k + 1 =>
    match subCheckAt s (k + 1) with
    | some h => some h
    | none => subTryK s k

/-- Group 1 of `subDomainRegexp` anchored right after a `://`. -/
def subHostAt (s : List Char) : Option (List Char) :=
  subTryK s (s.takeWhile (fun c => !(c == '/'))).length

/-- `subDomainRegexp.exec(url)`: leftmost `://` position with a match. -/
def subHostExec : List Char → Option (List Char)
  | [] => none
  | c :: rest =>
    if "://".toList.isPrefixOf (c :: rest) then
      match subHostAt rest.tail.tail with
      | some h => some h
      | none => subHostExec rest
    else subHostExec rest

/-- background.js `getBaseHostByUrl`.  `none` models the TypeError thrown
by `(rootHostRegexp.exec(url) || subDomainRegexp.exec(url))[1]` when both
`exec` calls return `null`. -/
def getBaseHostByUrl (url : String) : Option String :=
  if localExec url.toList then some "localhost"
  else
    match rootHostExec url.toList with
    | some h => some (String.mk h)
    | none => (subHostExec url.toList).map String.mk

/-! ### background.js: configuration and the ignored-URL set -/

/-- The storage-backed options read by the modelled code paths, resolved to
their values.  The defaults are those of `initDefaultOptions` together with
the default arguments at the `getStorageValue` call sites. -/
structure Config where
  ignoreExternal : Bool := false
  ignore404js : Bool := false
  ignore404css : Bool := false
  ignore404others : Bool := true
  linkStackOverflow : Bool := false
  showColumn : Bool := false
  showTrace : Bool := false
  linkViewSource : Bool := false
  ignoreBlockedByClient : Bool := true
  ignoreConnectionRefused : Bool := false

/-- The configuration with every option at its default. -/
def defaultConfig : Config := {}

/-- JS `url.split('.').pop()`: the part after the last `.` (the whole
string when there is no `.`). -/
def afterLastDot (l : List Char) : List Char :=
  (l.reverse.takeWhile (fun c => !(c == '.'))).reverse

/-- background.js `isUrlIgnoredByType`: chrome-extension URLs are always
ignored; otherwise classify by the lower-cased file suffix before any
`#`/`?` and look up the matching `ignore404*` option. -/
def isUrlIgnoredByType (cfg : Config) (url : String) : Bool :=
  if "chrome-extension://".toList.isPrefixOf url.toList then true
  else
    let ext := ((afterLastDot url.toList).takeWhile
      (fun c => !(c == '#') && !(c == '?'))).map Char.toLower
    if ext == "js".toList then cfg.ignore404js
    else if ext == "css".toList then cfg.ignore404css
    else cfg.ignore404others

/-- background.js `getIgnoredUrlHash`: `url.replace(/\d+/g, '')` removes
every decimal digit. -/
def getIgnoredUrlHash (url : String) : String :=
  String.mk (url.toList.filter (fun c => !c.isDigit))

/-- `ignoredUrlsLimit = 100`. -/
def ignoredUrlsLimit : Nat := 100

/-- The insertion step of the `chrome.webRequest.onErrorOccurred` listener,
acting on `ignoredUrlsHashes` modelled as its key list in insertion order
(JS object keys of non-integer strings preserve insertion order): delete
the key if present, add it at the end, and if the key count now exceeds
`ignoredUrlsLimit` delete the first (oldest) key. -/
def insertIgnoredUrl (s : List String) (url : String) : List String :=
  let s1 := if url ∈ s then s.erase url else s
  let s2 := s1 ++ [url]
  if s2.length > ignoredUrlsLimit then s2.tail else s2

/-- The guarded body of the `chrome.webRequest.onErrorOccurred` listener:
on a matching network error, hash the URL and insert it unless its type is
configured to be ignored. -/
def webRequestOnErrorStep (cfg : Config) (s : List String)
    (errCode : String) (url : String) : List String :=
  if (cfg.ignoreBlockedByClient && errCode == "net::ERR_BLOCKED_BY_CLIENT")
      || (cfg.ignoreConnectionRefused && errCode == "net::ERR_CONNECTION_REFUSED") then
    let h := getIgnoredUrlHash url
    if !(isUrlIgnoredByType cfg h) then insertIgnoredUrl s h else s
  else s

/-! ### background.js: HTML escaping and URI encoding -/

/-- JS `str.replace(/c/g, r)` for a single-character pattern: replace every
occurrence of `c` by `r`. -/
def jsReplaceAllChar (s : List Char) (c : Char) (r : List Char) : List Char :=
  s.flatMap (fun x => if x == c then r else [x])

/-- background.js `htmlentities`: the five chained global replacements, in
source order (`&` first). -/
def htmlentities (str : String) : String :=
  let s := str.toList
  let s := jsReplaceAllChar s '&' "&amp;".toList
  let s := jsReplaceAllChar s '<' "&lt;".toList
  let s := jsReplaceAllChar s '>' "&gt;".toList
  let s := jsReplaceAllChar s '"' "&quot;".toList
  let s := jsReplaceAllChar s '\'' "&#039;".toList
  String.mk s

/-- Per-character escaping map, written from the spec's words ("replaces
`&` with `&amp;`, `<` with `&lt;`, `>` with `&gt;`, `"` with `&quot;` and
`'` with `&#039;`"); compared with `htmlentities` in the C8 theorem. -/
def escChar (c : Char) : List Char :=
  if c == '&' then "&amp;".toList
  else if c == '<' then "&lt;".toList
  else if c == '>' then "&gt;".toList
  else if c == '"' then "&quot;".toList
  else if c == '\'' then "&#039;".toList
  else [c]

/-- The character-wise reading of `htmlentities` (see `escChar`). -/
def htmlentitiesSpec (str : String) : String :=
  String.mk (str.toList.flatMap escChar)

/-- The characters `encodeURIComponent` leaves unescaped. -/
def isUriUnreserved (c : Char) : Bool :=
  c.isAlphanum || c == '-' || c == '_' || c == '.' || c == '!'
    || c == '~' || c == '*' || c == '\'' || c == '(' || c == ')'

/-- Upper-case hexadecimal digit of `n < 16`. -/
def hexDigit (n : Nat) : Char :=
  if n < 10 then Char.ofNat (48 + n) else Char.ofNat (55 + n)

/-- UTF-8 bytes of a code point (surrogates cannot occur in `Char`). -/
def utf8BytesOfChar (c : Char) : List Nat :=
  let n := c.toNat
  if n < 128 then [n]
  else if n < 2048 then [192 + n / 64, 128 + n % 64]
  else if n < 65536 then [224 + n / 4096, 128 + n / 64 % 64, 128 + n % 64]
  else [240 + n / 262144, 128 + n / 4096 % 64, 128 + n / 64 % 64, 128 + n % 64]

/-- JS `encodeURIComponent`: percent-encode the UTF-8 bytes of every
character outside the unreserved set. -/
def encodeURIComponent (s : String) : String :=
  String.mk (s.toList.flatMap (fun c =>
    if isUriUnreserved c then [c]
    else (utf8BytesOfChar c).flatMap (fun b => ['%', hexDigit (b / 16), hexDigit (b % 16)])))

/-! ### background.js: script-error formatting (`handleErrorsRequest`, else branch) -/

/-- JS `\s` (whitespace class, no unicode flag). -/
def isJsSpace (c : Char) : Bool :=
  c == ' ' || c == '\t' || c == '\n' || c == '\r'
    || c.toNat == 11 || c.toNat == 12 || c.toNat == 160 || c.toNat == 0x1680
    || (0x2000 ≤ c.toNat && c.toNat ≤ 0x200a)
    || c.toNat == 0x2028 || c.toNat == 0x2029 || c.toNat == 0x202f
    || c.toNat == 0x205f || c.toNat == 0x3000 || c.toNat == 0xfeff

/-- The class matched by JS `.` (anything but line terminators). -/
def dotChar (c : Char) : Bool :=
  !(c == '\n' || c == '\r' || c.toNat == 0x2028 || c.toNat == 0x2029)

/-- JS `String.prototype.trim`. -/
def jsTrim (l : List Char) : List Char :=
  ((l.dropWhile isJsSpace).reverse.dropWhile isJsSpace).reverse

/-- `stack.replace(/\n\s*at\s+/g, '\n')`, scanning left to right; each
match (`\n`, whitespace, `at`, at least one whitespace) is replaced by a
single `\n` and scanning resumes at the match end.  The fuel is the input
length, which suffices because every step consumes at least one char. -/
def replaceNlAtAux : Nat → List Char → List Char
  | 0, l => l
  | _ + 1, [] => []
  | fuel + 1, c :: rest =>
    if c == '\n' then
      match rest.dropWhile isJsSpace with
      | 'a' :: 't' :: r3 =>
        match r3 with
        | c2 :: _ =>
          if isJsSpace c2 then '\n' :: replaceNlAtAux fuel (r3.dropWhile isJsSpace)
          else c :: replaceNlAtAux fuel rest
        | [] => c :: replaceNlAtAux fuel rest
      | _ => c :: replaceNlAtAux fuel rest
    else c :: replaceNlAtAux fuel rest

/-- `error.stack.replace(/\n\s*at\s+/g, '\n').split('\n')`. -/
def traceLines (stack : String) : List String :=
  (String.mk (replaceNlAtAux stack.toList.length stack.toList)).splitOn "\n"

/-- The lazy `.*?` of `/^(.*?)\(?(([\w-]+):\/\/.*?)(\)|$)/` after the
`://`: consume `.`-chars up to the first `)` or the end of the line;
`none` when a line terminator intervenes. -/
def lazyToCloser : List Char → Option (List Char)
  | [] => some []
  | c :: rest =>
    if c == ')' then some []
    else if dotChar c then (lazyToCloser rest).map (fun p => c :: p)
    else none

/-- `([\w-]+):\/\/` anchored at the head: the scheme run and the rest. -/
def schemeSlashes (s : List Char) : Option (List Char × List Char) :=
  let r := s.takeWhile (fun c => isWordChar c || c == '-')
  if r.isEmpty then none
  else
    match s.drop r.length with
    | ':' :: '/' :: '/' :: rest => some (r, rest)
    | _ => none

/-- Group 2 `(([\w-]+):\/\/.*?)(\)|$)` anchored at the head of `s`. -/
def tryG2 (s : List Char) : Option (List Char) :=
  match schemeSlashes s with
  | some (r, after) =>
    (lazyToCloser after).map (fun p => r ++ ':' :: '/' :: '/' :: p)
  | none => none

/-- `\(?` then group 2, greedy: try consuming a `(` first. -/
def tryUrlAt (s : List Char) : Option (List Char) :=
  match s with
  | '(' :: s1 =>
    match tryG2 s1 with
    | some g => some g
    | none => tryG2 ('(' :: s1)
  | _ => tryG2 s

/-- The lazy outer group 1 of the stack-line regexp: try the shortest
prefix first; its chars must be `.`-chars.  Returns `(group1, group2)`. -/
def urlExecAux : List Char → List Char → Option (List Char × List Char)
  | acc, [] =>
    match tryUrlAt [] with
    | some g2 => some (acc.reverse, g2)
    | none => none
  | acc, c :: rest =>
    match tryUrlAt (c :: rest) with
    | some g2 => some (acc.reverse, g2)
    | none => if dotChar c then urlExecAux (c :: acc) rest else none

/-- `/^(.*?)\(?(([\w-]+):\/\/.*?)(\)|$)/.exec(line)`: `(m[1], m[2])`. -/
def urlExec (l : List Char) : Option (List Char × List Char) :=
  urlExecAux [] l

/-- `/^(.*?):([\d:]+)$/.exec(url)` (column mode): lazy group 1 up to the
first `:` whose whole remaining suffix is a nonempty run of `[\d:]`. -/
def lineMatchAAux : List Char → List Char → Option (List Char × List Char)
  | _, [] => none
  | acc, c :: rest =>
    if c == ':' then
      if !rest.isEmpty && rest.all (fun x => x.isDigit || x == ':') then
        some (acc.reverse, rest)
      else lineMatchAAux (c :: acc) rest
    else if dotChar c then lineMatchAAux (c :: acc) rest
    else none

/-- `/^(.*?):([\d:]+)$/.exec(url)` giving `(m[1], m[2])`. -/
def lineMatchA (l : List Char) : Option (List Char × List Char) :=
  lineMatchAAux [] l

/-- `/^(.*?):(\d+)(:\d+)?$/.exec(url)`: lazy group 1 up to the first `:`
followed by digits and an optional `:digits`, anchored at the end. -/
def lineMatchBAux : List Char → List Char → Option (List Char × List Char)
  | _, [] => none
  | acc, c :: rest =>
    if c == ':' then
      let r1 := rest.takeWhile Char.isDigit
      if r1.isEmpty then lineMatchBAux (c :: acc) rest
      else
        match rest.drop r1.length with
        | [] => some (acc.reverse, r1)
        | ':' :: r2 =>
          if !r2.isEmpty && r2.all Char.isDigit then some (acc.reverse, r1)
          else lineMatchBAux (c :: acc) rest
        | _ => lineMatchBAux (c :: acc) rest
    else if dotChar c then lineMatchBAux (c :: acc) rest
    else none

/-- `/^(.*?):(\d+)(:\d+)?$/.exec(url)` giving `(m[1], m[2])`. -/
def lineMatchB (l : List Char) : Option (List Char × List Char) :=
  lineMatchBAux [] l

/-- One iteration of the trace loop of `handleErrorsRequest`: the HTML
fragment appended for one stack line (empty for a skipped line). -/
def renderTraceLine (cfg : Config) (lineText : String) : String :=
  match urlExec lineText.toList with
  | some (g1, g2) =>
    let method := String.mk (jsTrim g1)
    let lm := if cfg.showColumn then lineMatchA g2 else lineMatchB g2
    let url := match lm with | some (u, _) => String.mk u | none => String.mk g2
    let ln : Option String := match lm with | some (_, l) => some (String.mk l) | none => none
    "<br/>&nbsp;"
      ++ (if !(url == "") then
            (if cfg.linkViewSource then
              "<a href=\"view-source:" ++ url
                ++ (match ln with | some l => "#" ++ l | none => "")
                ++ "\" target=\"_blank\">" ++ url
                ++ (match ln with | some l => ":" ++ l | none => "") ++ "</a>"
            else url ++ (match ln with | some l => ":" ++ l | none => ""))
          else "")
      ++ (if !(method == "") then " " ++ method ++ "()" else "")
  | none =>
    let method := lineText
    if method == "Error (native)" then ""
    else "<br/>&nbsp;" ++ (if !(method == "") then " " ++ method ++ "()" else "")

/-- `if(p.toList.isPrefixOf s)` strip: JS `replace(/^p/, '')`. -/
def stripLeading (p : String) (s : List Char) : List Char :=
  if p.toList.isPrefixOf s then s.drop p.toList.length else s

/-- JS truthiness of an optional number (`null` and `0` are falsy). -/
def optNatTruthy : Option Nat → Bool
  | some n => !(n == 0)
  | none => false

/-- The final value of `error.line` as a string: `showColumn` (with truthy
line and col) rewrites it to `line:col`; otherwise it is the line when
truthy and falsy (`none`) otherwise. -/
def lineColStr (cfg : Config) (e : ErrorRecord) : Option String :=
  if cfg.showColumn && optNatTruthy e.line && optNatTruthy e.col then
    some (toString (e.line.getD 0) ++ ":" ++ toString (e.col.getD 0))
  else if optNatTruthy e.line then some (toString (e.line.getD 0))
  else none

/-- The `errorHtml` built by the else (script error) branch of the loop in
`handleErrorsRequest`: boilerplate-stripped message (optionally wrapped in
a search link), then either the rendered stack trace (when `showTrace` is
on, the stack is truthy and it has more than two lines) or a single
`url:line` line (optionally a view-source link). -/
def formatScriptErrorHtml (cfg : Config) (e : ErrorRecord) : String :=
  let text := String.mk (stripLeading "Error: " (stripLeading "Uncaught " e.text.toList))
  let base :=
    if cfg.linkStackOverflow then
      "<a target=\"_blank\" href=\"http://www.google.com/search?q="
        ++ encodeURIComponent (htmlentities text)
        ++ "%20site%3Astackoverflow.com\" id=\"\">" ++ htmlentities text ++ "</a>"
    else htmlentities text
  let lineStr := lineColStr cfg e
  let stackStr := e.stack.getD ""
  if cfg.showTrace && !(stackStr == "") && (traceLines stackStr).length > 2 then
    ((traceLines stackStr).drop 1).foldl (fun acc ln => acc ++ renderTraceLine cfg ln) base
  else
    let url := e.url ++ (match lineStr with | some l => ":" ++ l | none => "")
    base ++ "<br/>&nbsp;"
      ++ (if cfg.linkViewSource then
            "<a href=\"view-source:" ++ e.url
              ++ (match lineStr with | some l => "#" ++ l | none => "")
              ++ "\" target=\"_blank\">" ++ url ++ "</a>"
          else url)

/-! ### background.js: `handleErrorsRequest` and `handleInitRequest` -/

/-- The `popupErrors` entry pushed for a 404 record:
`'File not found: ' + htmlentities(error.url)`. -/
def fileNotFoundEntry (e : ErrorRecord) : String :=
  "File not found: " ++ htmlentities e.url

/-- The loop of `handleErrorsRequest` over `data.errors`, building
`popupErrors`: skip external errors when configured; for a 404, drop it
when its hash is in the ignored set or its type is ignored, else `unshift`
a "File not found" entry; for a script error, `push` the formatted HTML.
`none` models the TypeError thrown by `getBaseHostByUrl` on a record whose
`url` matches none of the host patterns. -/
def handleErrorsGo (cfg : Config) (ignored : List String) (tabHost : String) :
    List ErrorRecord → List String → Option (List String)
  | [], acc => some acc
  | e :: rest, acc =>
    match getBaseHostByUrl e.url with
    | none => none
    | some errorHost =>
      if cfg.ignoreExternal && errorHost != tabHost then
        handleErrorsGo cfg ignored tabHost rest acc
      else if e.is404 then
        if ignored.contains (getIgnoredUrlHash e.url) || isUrlIgnoredByType cfg e.url then
          handleErrorsGo cfg ignored tabHost rest acc
        else
          handleErrorsGo cfg ignored tabHost rest (fileNotFoundEntry e :: acc)
      else
        handleErrorsGo cfg ignored tabHost rest (acc ++ [formatScriptErrorHtml cfg e])

/-- background.js `handleErrorsRequest`, up to the construction of
`popupErrors`: resolve the tab host from `data.url` (throwing — `none` —
when it matches no pattern), then run the loop. -/
def handleErrorsPopupErrors (cfg : Config) (ignored : List String)
    (url : String) (errors : List ErrorRecord) : Option (List String) :=
  match getBaseHostByUrl url with
  | none => none
  | some tabHost => handleErrorsGo cfg ignored tabHost errors []

/-- background.js `handleInitRequest`, host/popup part: resolve the tab
host (throwing — `none` — when `data.url` matches no pattern) and build
the action popup URL. -/
def handleInitRequestPopup (tabId : Nat) (url : String) : Option String :=
  (getBaseHostByUrl url).map (fun tabHost =>
    "popup.html?host=" ++ encodeURIComponent tabHost ++ "&tabId=" ++ toString tabId)

/-- Characterization of the records whose 404 entry survives the loop of
`handleErrorsRequest` (used by the C4 theorem). -/
def keeps404 (cfg : Config) (ignored : List String) (tabHost : String)
    (e : ErrorRecord) : Bool :=
  match getBaseHostByUrl e.url with
  | none => false
  | some errorHost =>
    !(cfg.ignoreExternal && errorHost != tabHost) && e.is404
      && !(ignored.contains (getIgnoredUrlHash e.url) || isUrlIgnoredByType cfg e.url)

/-- Characterization of the script-error records that survive the loop of
`handleErrorsRequest` (used by the C4 theorem). -/
def keepsScript (cfg : Config) (tabHost : String) (e : ErrorRecord) : Bool :=
  match getBaseHostByUrl e.url with
  | none => false
  | some errorHost => !(cfg.ignoreExternal && errorHost != tabHost) && !e.is404

/-! ### popup.js: error-list initialization and rendering -/

/-- popup.js module init: `errors = []`, then when the `errors` URL
parameter is present (and truthy), `JSON.parse(decodeURIComponent(...))`
inside `try { ... } catch { /* logged, errors stays [] */ }`.  The
combined decode+parse is the function argument `decodeParse`, with `none`
modelling a thrown (and caught) exception. -/
def popupErrorsInit (errorsParam : Option String)
    (decodeParse : String → Option (List ErrorRecord)) : List ErrorRecord :=
  match errorsParam with
  | none => []
  | some s => if s == "" then [] else (decodeParse s).getD []

/-- The empty-state markup of popup.js `displayErrors`. -/
def emptyStateHtml : String :=
  "<div class=\"empty\">エラーは発生していません</div>"

/-- One `.log` entry of popup.js `displayErrors`. -/
def displayErrorItem (e : ErrorRecord) : String :=
  "<div class=\"log\"><div class=\"head\"><span class=\"pill error\">ERROR</span><span class=\"src\">"
    ++ (if e.url == "" then "unknown" else e.url)
    ++ (match e.line with
        | some n => if n == 0 then "" else ":" ++ toString n
        | none => "")
    ++ "</span></div><div class=\"msg\">"
    ++ (if e.text == "" then "Unknown error" else e.text)
    ++ "</div></div>"

/-- popup.js `displayErrors`: the HTML written into `#newErrorInfo` — the
empty-state message when there are no errors, otherwise the header, the
scrollable list of entries and (for more than one error) the show-more
button. -/
def displayErrorsHtml (errors : List ErrorRecord) : String :=
  if errors.length == 0 then emptyStateHtml
  else
    "<div style=\"margin-bottom: 15px;\"><strong>検出されたエラー ("
      ++ toString errors.length ++ "件):</strong></div>"
      ++ "<div class=\"errors-container\">"
      ++ errors.foldl (fun acc e => acc ++ displayErrorItem e) ""
      ++ "</div>"
      ++ (if errors.length > 1 then
            "<div class=\"show-more-container\"><button id=\"showMoreBtn\" class=\"show-more-btn\">もっと見る ("
              ++ toString (errors.length - 1) ++ "件)</button></div>"
          else "")

/-! ### Concrete inputs used by the theorems -/

/-- The script error of the spec's first end-to-end scenario. -/
def recScript : ErrorRecord :=
  { text := "Uncaught TypeError: x is not a function", url := "http://a.test/app.js",
    line := some 10, col := some 2 }

/-- The 404 record of the spec's second end-to-end scenario. -/
def rec404png : ErrorRecord :=
  { text := "", url := "http://a.test/missing.png", is404 := true }

/-- A second 404 record (a stylesheet) for the ordering theorem. -/
def rec404css : ErrorRecord :=
  { text := "", url := "http://a.test/theme.css", is404 := true }

/-- The default configuration with `ignore404others` turned off. -/
def cfg404 : Config := { ignore404others := false }

/-- 101 pairwise distinct one-character strings. -/
def urls101 : List String :=
  (List.range 101).map (fun n => String.mk [Char.ofNat (65 + n)])

/-- Executable check for the spec's buffer invariant "no two consecutive
entries are identical under the dedup tuple". -/
def hasAdjacentDup : List ErrorRecord → Bool
  | [] => false
  | [_] => false
  | a :: b :: rest => decide (dedupKey a = dedupKey b) || hasAdjacentDup (b :: rest)

/-! ## Theorems -/

theorem tail_append_left {α : Type} (s t : List α) (h : s ≠ []) :
    (s ++ t).tail = s.tail ++ t := by
  cases s with
  | nil => exact absurd rfl h
  | cons a s1 => rfl

theorem ingestBuffer_length_le (s : List ErrorRecord) (e : ErrorRecord)
    (h : s.length ≤ 10) : (ingestBuffer s e).length ≤ 10 := by
  simp only [ingestBuffer]
  split <;> simp_all

theorem foldl_ingestBuffer_length_le (es : List ErrorRecord) (s : List ErrorRecord)
    (h : s.length ≤ 10) : (List.foldl ingestBuffer s es).length ≤ 10 := by
  induction es generalizing s with
  | nil => simpa using h
  | cons e rest ih => exact ih (ingestBuffer s e) (ingestBuffer_length_le s e h)

/-- C1: feeding any sequence of records through the content script's
ingestion (`handleNewError`'s buffer update) starting from the empty
buffer never produces more than 10 records (the fixed capacity), and a
record inserted into a full buffer evicts the oldest record first. -/
theorem errorBuffer_capacity_fifo :
    (∀ es : List ErrorRecord, (List.foldl ingestBuffer [] es).length ≤ 10)
    ∧ (∀ (s : List ErrorRecord) (e : ErrorRecord), s.length = 10 →
        ingestBuffer s e = s.tail ++ [e]) := by
  constructor
  · intro es
    exact foldl_ingestBuffer_length_le es [] (by simp)
  · intro s e h
    have hs : s ≠ [] := by
      intro h0
      rw [h0] at h
      simp at h
    simp only [ingestBuffer]
    rw [if_pos (by simp [h]), tail_append_left s [e] hs]

/-- Witness for C1 at a full concrete buffer. -/
theorem errorBuffer_capacity_fifo_witness :
    ingestBuffer (List.replicate 10 recScript) rec404png
      = (List.replicate 10 recScript).tail ++ [rec404png] :=
  errorBuffer_capacity_fifo.2 (List.replicate 10 recScript) rec404png (by simp)

/-- C2 counterexample: the ingestion has no dedup step — feeding the same
record twice into the empty buffer leaves two adjacent records with equal
`(text,url,line,col)` tuples in the buffer. -/
theorem errorBuffer_dedup_cex :
    List.foldl ingestBuffer [] [recScript, recScript] = [recScript, recScript]
    ∧ hasAdjacentDup (List.foldl ingestBuffer [] [recScript, recScript]) = true := by
  constructor
  · rfl
  · rfl

/-- C2 (amended): the buffer may contain consecutive entries identical
under the dedup tuple: every fed record is appended unconditionally — the
buffer always ends with it, and grows by one element until the capacity of
10 is reached — even when it equals the immediately preceding record. -/
theorem errorBuffer_append_always :
    ∀ (s : List ErrorRecord) (e : ErrorRecord),
      (ingestBuffer s e).getLast? = some e
      ∧ (s.length ≤ 10 → (ingestBuffer s e).length = min (s.length + 1) 10) := by
  intro s e
  constructor
  · simp only [ingestBuffer]
    split
    · next hlen =>
      have hs : s ≠ [] := by
        intro h0
        rw [h0] at hlen
        simp at hlen
      rw [tail_append_left s [e] hs]
      exact List.getLast?_concat _
    · exact List.getLast?_concat _
  · intro h
    simp only [ingestBuffer]
    split <;> simp_all <;> omega

/-- Witness for C2's amended theorem: a record equal to the last buffered
record is still appended, and a full buffer stays at 10. -/
theorem errorBuffer_append_always_witness :
    (ingestBuffer (List.replicate 10 recScript) recScript).getLast? = some recScript
    ∧ (ingestBuffer (List.replicate 10 recScript) recScript).length
        = min ((List.replicate 10 recScript).length + 1) 10 := by
  have h := errorBuffer_append_always (List.replicate 10 recScript) recScript
  exact ⟨h.1, h.2 (by simp)⟩

/-- C3 counterexample: there is no debounce timer — a synchronous burst of
2 records makes `handleNewError` send 2 runtime messages, not a single
batched one. -/
theorem relay_debounce_cex :
    (relayProcess "http://a.test/page" [] [recScript, rec404png]).2.length = 2
    ∧ ¬ (relayProcess "http://a.test/page" [] [recScript, rec404png]).2.length = 1 := by
  constructor
  · rfl
  · intro h
    simp [relayProcess, handleNewError] at h

/-- C3 (amended): every record ingested by the content script immediately
sends one runtime message to the service worker, carrying the entire
current buffer and the page URL; a synchronous burst of N records hence
produces N outbound messages (one per record), the i-th holding the buffer
after the first i insertions. -/
theorem relay_message_per_record :
    ∀ (url : String) (init es : List ErrorRecord),
      (relayProcess url init es).1 = List.foldl ingestBuffer init es
      ∧ (relayProcess url init es).2.length = es.length
      ∧ (relayProcess url init es).2
          = (List.range es.length).map
              (fun i => ⟨List.foldl ingestBuffer init (es.take (i + 1)), url⟩) := by
  intro url init es
  induction es generalizing init with
  | nil => exact ⟨rfl, rfl, rfl⟩
  | cons e rest ih =>
    obtain ⟨ih1, ih2, ih3⟩ := ih (ingestBuffer init e)
    refine ⟨?_, ?_, ?_⟩
    · simpa [relayProcess, handleNewError] using ih1
    · simpa [relayProcess, handleNewError] using ih2
    · simp only [relayProcess, handleNewError, List.length_cons, List.range_succ_eq_map,
        List.map_cons, List.map_map]
      rw [ih3]
      simp [List.foldl_cons, Function.comp]

theorem insertIgnoredUrl_capacity (s : List String) (k : String)
    (h : s.length ≤ ignoredUrlsLimit) :
    (insertIgnoredUrl s k).length ≤ ignoredUrlsLimit := by
  simp only [insertIgnoredUrl]
  split
  · next hmem =>
    have he := List.length_erase_of_mem hmem
    split <;> simp_all <;> omega
  · split <;> simp_all <;> omega

theorem insertIgnoredUrl_foldl_drop (l : List String) (h : l.Nodup) :
    List.foldl insertIgnoredUrl [] l = l.drop (l.length - ignoredUrlsLimit) := by
  induction l using List.reverseRecOn with
  | nil => rfl
  | append_singleton l k ih =>
    have hn : l.Nodup ∧ k ∉ l := by
      simp [List.nodup_append] at h
      exact ⟨h.1, h.2⟩
    rw [List.foldl_append, List.foldl_cons, List.foldl_nil, ih hn.1]
    have hkD : k ∉ l.drop (l.length - ignoredUrlsLimit) :=
      fun hm => hn.2 (List.drop_subset _ l hm)
    simp only [insertIgnoredUrl, if_neg hkD]
    by_cases hl : l.length ≤ ignoredUrlsLimit - 1
    · have h0 : l.length - ignoredUrlsLimit = 0 := by
        simp only [ignoredUrlsLimit] at *; omega
      have h0' : (l ++ [k]).length - ignoredUrlsLimit = 0 := by
        simp only [ignoredUrlsLimit, List.length_append] at *; simp; omega
      rw [h0, h0', List.drop_zero, List.drop_zero]
      rw [if_neg]
      simp only [List.length_append, List.length_drop, List.length_cons,
        ignoredUrlsLimit] at *
      omega
    · have hlen : (l.drop (l.length - ignoredUrlsLimit)).length = ignoredUrlsLimit := by
        simp only [List.length_drop, ignoredUrlsLimit] at *; omega
      rw [if_pos (by simp [hlen])]
      have hne : l.drop (l.length - ignoredUrlsLimit) ≠ [] := by
        intro h0
        rw [h0] at hlen
        simp [ignoredUrlsLimit] at hlen
      rw [tail_append_left _ _ hne, List.tail_drop]
      have harith : l.length - ignoredUrlsLimit + 1 = (l ++ [k]).length - ignoredUrlsLimit := by
        simp only [List.length_append, List.length_cons, ignoredUrlsLimit] at *
        simp; omega
      rw [harith, List.drop_append_of_le_length]
      simp only [ignoredUrlsLimit, List.length_append, List.length_cons] at *
      omega

/-- C5: the ignored-URL set respects `ignoredUrlsLimit = 100`: (i) an
insertion never pushes it past 100 keys; (ii) inserting a key already
present moves it to the most-recently-used (last) position without growing
the set; (iii) inserting into a full set of fresh keys evicts the
least-recently-used (first) key; (iv) inserting 101 distinct keys into the
empty set retains exactly the most recent 100, in order. -/
theorem ignoredUrlSet_lru :
    (∀ (s : List String) (k : String), s.length ≤ ignoredUrlsLimit →
        (insertIgnoredUrl s k).length ≤ ignoredUrlsLimit)
    ∧ (∀ (s : List String) (k : String), k ∈ s → s.length ≤ ignoredUrlsLimit →
        insertIgnoredUrl s k = s.erase k ++ [k]
          ∧ (insertIgnoredUrl s k).length = s.length)
    ∧ (∀ (s : List String) (k : String), k ∉ s → s.length = ignoredUrlsLimit →
        insertIgnoredUrl s k = s.tail ++ [k])
    ∧ (∀ l : List String, l.Nodup → l.length = 101 →
        List.foldl insertIgnoredUrl [] l = l.tail) := by
  refine ⟨insertIgnoredUrl_capacity, ?_, ?_, ?_⟩
  · intro s k hmem hlen
    have he := List.length_erase_of_mem hmem
    have hpos : 1 ≤ s.length := List.length_pos_of_mem hmem
    constructor
    · simp only [insertIgnoredUrl, if_pos hmem]
      rw [if_neg]
      simp only [List.length_append, ignoredUrlsLimit] at *
      simp; omega
    · simp only [insertIgnoredUrl, if_pos hmem]
      rw [if_neg]
      · simp only [List.length_append] at *
        simp; omega
      · simp only [List.length_append, ignoredUrlsLimit] at *
        simp; omega
  · intro s k hmem hlen
    have hne : s ≠ [] := by
      intro h0
      rw [h0] at hlen
      simp [ignoredUrlsLimit] at hlen
    simp only [insertIgnoredUrl, if_neg hmem]
    rw [if_pos (by simp [hlen, ignoredUrlsLimit]), tail_append_left _ _ hne]
  · intro l hnd hlen
    rw [insertIgnoredUrl_foldl_drop l hnd, hlen]
    simp [ignoredUrlsLimit, List.drop_one]

/-- Witness for C5: the 101 distinct keys of `urls101` leave the most
recent 100 retained, and re-inserting a present key moves it last. -/
theorem ignoredUrlSet_lru_witness :
    List.foldl insertIgnoredUrl [] urls101 = urls101.tail
    ∧ insertIgnoredUrl ["a", "b"] "a" = (["a", "b"].erase "a") ++ ["a"] := by
  constructor
  · exact ignoredUrlSet_lru.2.2.2 urls101 (by decide) (by decide)
  · exact (ignoredUrlSet_lru.2.1 ["a", "b"] "a" (by decide) (by decide)).1

theorem insertIgnoredUrl_mem_self (s : List String) (k : String) :
    k ∈ insertIgnoredUrl s k := by
  by_cases hmem : k ∈ s
  · simp only [insertIgnoredUrl, if_pos hmem]
    split
    · next hlen =>
      have hne : s.erase k ≠ [] := by
        intro h0
        rw [h0] at hlen
        simp [ignoredUrlsLimit] at hlen
      rw [tail_append_left _ _ hne]
      simp
    · simp
  · simp only [insertIgnoredUrl, if_neg hmem]
    split
    · next hlen =>
      have hne : s ≠ [] := by
        intro h0
        rw [h0] at hlen
        simp [ignoredUrlsLimit] at hlen
      rw [tail_append_left _ _ hne]
      simp
    · simp

/-- C6: `getIgnoredUrlHash` strips every digit, so
`http://example.com/file123.js` normalizes to `http://example.com/file.js`;
consequently, once a URL's hash is in the ignored set, a later 404 lookup
for the same URL with different digits (`file456.js`) hits the set and the
record is suppressed (dropped from `popupErrors`). -/
theorem ignoredUrlHash_digits :
    getIgnoredUrlHash "http://example.com/file123.js" = "http://example.com/file.js"
    ∧ (∀ s : List String,
        getIgnoredUrlHash "http://example.com/file456.js"
          ∈ insertIgnoredUrl s (getIgnoredUrlHash "http://example.com/file123.js"))
    ∧ handleErrorsPopupErrors defaultConfig
        (insertIgnoredUrl [] (getIgnoredUrlHash "http://example.com/file123.js"))
        "http://example.com/page"
        [{ text := "", url := "http://example.com/file456.js", is404 := true }]
      = some [] := by
  refine ⟨rfl, ?_, rfl⟩
  intro s
  have h : getIgnoredUrlHash "http://example.com/file456.js"
      = getIgnoredUrlHash "http://example.com/file123.js" := rfl
  rw [h]
  exact insertIgnoredUrl_mem_self s _

/-- C10: `getBaseHostByUrl` throws (models to `none`) on inputs matching
none of its host patterns — the empty string and a scheme-less relative
URL — and hence neither `handleInitRequest` nor `handleErrorsRequest` is
total: a batch containing a record with such a `url` makes the handler
raise instead of skipping the record. -/
theorem baseHost_throws_on_unmatched :
    getBaseHostByUrl "" = none
    ∧ getBaseHostByUrl "foo/bar" = none
    ∧ handleInitRequestPopup 7 "foo/bar" = none
    ∧ handleErrorsPopupErrors defaultConfig [] "http://a.test/x"
        [{ text := "t", url := "foo/bar" }] = none :=
  ⟨rfl, rfl, rfl, rfl⟩

theorem stringToList_append (s t : String) :
    (s ++ t).toList = s.toList ++ t.toList :=
  String.data_append s t

theorem htmlentities_charwise (l : List Char) :
    jsReplaceAllChar (jsReplaceAllChar (jsReplaceAllChar (jsReplaceAllChar
        (jsReplaceAllChar l '&' "&amp;".toList) '<' "&lt;".toList)
        '>' "&gt;".toList) '"' "&quot;".toList) '\'' "&#039;".toList
      = l.flatMap escChar := by
  show (((((l.flatMap _).flatMap _).flatMap _).flatMap _).flatMap _) = l.flatMap escChar
  rw [List.bind_assoc, List.bind_assoc, List.bind_assoc, List.bind_assoc]
  congr 1
  funext c
  by_cases h1 : c = '&'
  · subst h1; rfl
  by_cases h2 : c = '<'
  · subst h2; rfl
  by_cases h3 : c = '>'
  · subst h3; rfl
  by_cases h4 : c = '"'
  · subst h4; rfl
  by_cases h5 : c = '\''
  · subst h5; rfl
  simp [escChar, h1, h2, h3, h4, h5]

/-- C8: `htmlentities` is total over its five special characters — on
every input it acts exactly as the character-wise map replacing `&`, `<`,
`>`, `"` and `'` by their entities (`htmlentitiesSpec`) — and on the
spec's example it yields `&lt;a&gt;&amp;&quot;&#039;`. -/
theorem htmlentities_total :
    (∀ s : String, htmlentities s = htmlentitiesSpec s)
    ∧ htmlentities (String.mk ['<', 'a', '>', '&', '"', '\''])
        = "&lt;a&gt;&amp;&quot;&#039;" := by
  constructor
  · intro s
    show String.mk _ = String.mk _
    exact congrArg String.mk (htmlentities_charwise s.toList)
  · rfl

/-- C9: when decoding/JSON-parsing the popup's `errors` parameter throws
(the `catch` path, modelled by `decodeParse` returning `none`), the popup's
error list stays empty and `displayErrors` renders the empty-state markup;
the exception never escapes (the model is a total function). -/
theorem popup_malformed_json :
    ∀ (decodeParse : String → Option (List ErrorRecord)) (s : String),
      decodeParse s = none →
      popupErrorsInit (some s) decodeParse = []
      ∧ displayErrorsHtml (popupErrorsInit (some s) decodeParse) = emptyStateHtml := by
  intro dp s h
  have h0 : popupErrorsInit (some s) dp = [] := by
    simp only [popupErrorsInit]
    split
    · rfl
    · rw [h]; rfl
  exact ⟨h0, by rw [h0]; rfl⟩

/-- Witness for C9 at a concrete non-JSON payload. -/
theorem popup_malformed_json_witness :
    popupErrorsInit (some "not json") (fun _ => none) = []
    ∧ displayErrorsHtml (popupErrorsInit (some "not json") (fun _ => none))
        = emptyStateHtml :=
  popup_malformed_json (fun _ => none) "not json" rfl

/-- C7 counterexample: `http://abc#a.b` decomposes as scheme `http`, a
nonempty dot-free host `abc` and the fragment `#a.b`, yet
`getBaseHostByUrl` does not return `localhost` — it matches none of the
patterns and throws (`none`): the fragment's dot stops `[^.:]+` before a
terminator is reached. -/
theorem baseHost_fragment_cex :
    ("http://abc#a.b" : String) = "http" ++ "://" ++ "abc" ++ "#a.b"
    ∧ (∀ c ∈ ("abc" : String).toList, c ≠ '.')
    ∧ getBaseHostByUrl "http://abc#a.b" = none := by
  refine ⟨rfl, ?_, rfl⟩
  decide

theorem localTail_cons (c : Char) (rest : List Char) :
    localTail (c :: rest)
      = (isTermChar c || (if c == '.' || c == ':' then false else localTail rest)) := rfl

theorem localExec_cons (c : Char) (rest : List Char) :
    localExec (c :: rest)
      = ("file://".toList.isPrefixOf (c :: rest)
          || ("://".toList.isPrefixOf (c :: rest) && localBody rest.tail.tail)
          || localExec rest) := rfl

theorem localTail_append_true (l r : List Char)
    (h : ∀ c ∈ l, c ≠ '.' ∧ c ≠ ':') (hr : localTail r = true) :
    localTail (l ++ r) = true := by
  induction l with
  | nil => simpa using hr
  | cons c t ih =>
    have hc := h c (by simp)
    have ht : ∀ c ∈ t, c ≠ '.' ∧ c ≠ ':' := fun x hx => h x (by simp [hx])
    rw [List.cons_append, localTail_cons, if_neg (by simp [hc.1, hc.2]), ih ht]
    simp

theorem localExec_append_true (l r : List Char) (hr : localExec r = true) :
    localExec (l ++ r) = true := by
  induction l with
  | nil => simpa using hr
  | cons c t ih =>
    rw [List.cons_append, localExec_cons, ih]
    simp

/-- C7 (amended): host extraction is deterministic (the regexps are
stateless, so the model is a pure function), yields `localhost` for every
URL starting with `file://`, and yields `localhost` for every URL of the
form `pre://host·rest` whose host is nonempty, free of `.` and `:`, and
immediately followed by `/`, `?`, `:` or the end of the URL (e.g.
`http://localhost:3000/x`).  The follower condition is necessary: a
dotless host followed by a `#` fragment containing a dot throws instead
(see the counterexample). -/
theorem baseHost_localhost_amended :
    (∀ u : String, getBaseHostByUrl u = getBaseHostByUrl u)
    ∧ (∀ r : String, getBaseHostByUrl ("file://" ++ r) = some "localhost")
    ∧ (∀ pre host rest : String,
        host ≠ "" → (∀ c ∈ host.toList, c ≠ '.' ∧ c ≠ ':') →
        (rest = "" ∨ ∃ c cs, rest.toList = c :: cs ∧ (c = '/' ∨ c = '?' ∨ c = ':')) →
        getBaseHostByUrl (pre ++ "://" ++ host ++ rest) = some "localhost") := by
  refine ⟨fun _ => rfl, ?_, ?_⟩
  · intro r
    have hloc : localExec ("file://" ++ r).toList = true := by
      rw [stringToList_append]
      show localExec ('f' :: 'i' :: 'l' :: 'e' :: ':' :: '/' :: '/' :: r.toList) = true
      rw [localExec_cons]
      simp [List.isPrefixOf]
    simp only [getBaseHostByUrl]
    rw [if_pos hloc]
  · intro pre host rest hne hhost hrest
    obtain ⟨hc, ht, hsplit⟩ : ∃ hc ht, host.toList = hc :: ht := by
      cases hh : host.toList with
      | nil => exact absurd (String.ext hh) hne
      | cons a b => exact ⟨a, b, rfl⟩
    have hrtail : localTail rest.toList = true := by
      rcases hrest with h0 | ⟨c, cs, hcs, hdelim⟩
      · rw [show rest.toList = [] from by rw [h0]; rfl]
        rfl
      · rw [hcs, localTail_cons]
        rcases hdelim with h | h | h <;> simp [isTermChar, h]
    have hbody : localBody (hc :: (ht ++ rest.toList)) = true := by
      have hc0 := hhost hc (by rw [hsplit]; simp)
      have hts : ∀ c ∈ ht, c ≠ '.' ∧ c ≠ ':' :=
        fun x hx => hhost x (by rw [hsplit]; simp [hx])
      show (if hc == '.' || hc == ':' then false else localTail (ht ++ rest.toList)) = true
      rw [if_neg (by simp [hc0.1, hc0.2])]
      exact localTail_append_true ht rest.toList hts hrtail
    have hloc : localExec (pre ++ "://" ++ host ++ rest).toList = true := by
      have hdecomp : (pre ++ "://" ++ host ++ rest).toList
          = pre.toList ++ (':' :: '/' :: '/' :: (host.toList ++ rest.toList)) := by
        rw [stringToList_append, stringToList_append, stringToList_append]
        simp only [List.append_assoc]
        rfl
      rw [hdecomp]
      apply localExec_append_true
      rw [localExec_cons]
      have hpre : ("://".toList.isPrefixOf
          (':' :: '/' :: '/' :: (host.toList ++ rest.toList))) = true := by
        simp [List.isPrefixOf]
      rw [hsplit]
      simp [hpre]
      exact Or.inl hbody
    simp only [getBaseHostByUrl]
    rw [if_pos hloc]

/-- Witness for C7's amended theorem at `http://localhost:3000/x`. -/
theorem baseHost_localhost_amended_witness :
    getBaseHostByUrl "http://localhost:3000/x" = some "localhost" := by
  have h := baseHost_localhost_amended.2.2 "http" "localhost" ":3000/x"
    (by decide) (by decide) (Or.inr ⟨':', "3000/x".toList, rfl, Or.inr (Or.inr rfl)⟩)
  exact h

/-- C4 counterexample: with the default configuration
(`ignore404others = true`) and an empty ignored set, the batch holding the
404 record for `http://a.test/missing.png` produces an *empty*
`popupErrors` list — `isUrlIgnoredByType` classifies `.png` as "others"
and returns `ignore404others`, so the record is deleted and nothing
surfaces (the handler then returns without updating any UI state). -/
theorem fourOhFour_default_cex :
    defaultConfig.ignore404others = true
    ∧ handleErrorsPopupErrors defaultConfig [] "http://a.test/page" [rec404png]
        = some [] :=
  ⟨rfl, rfl⟩

theorem handleErrorsGo_spec (cfg : Config) (ignored : List String) (tabHost : String)
    (es : List ErrorRecord) :
    ∀ acc : List String,
      (∀ e ∈ es, getBaseHostByUrl e.url ≠ none) →
      handleErrorsGo cfg ignored tabHost es acc
        = some (((es.filter (keeps404 cfg ignored tabHost)).reverse.map fileNotFoundEntry)
            ++ acc
            ++ (es.filter (keepsScript cfg tabHost)).map (formatScriptErrorHtml cfg)) := by
  induction es with
  | nil =>
    intro acc _
    simp [handleErrorsGo]
  | cons e rest ih =>
    intro acc h
    have he : getBaseHostByUrl e.url ≠ none := h e (by simp)
    have hrest : ∀ x ∈ rest, getBaseHostByUrl x.url ≠ none :=
      fun x hx => h x (by simp [hx])
    obtain ⟨eh, hcase⟩ := Option.ne_none_iff_exists'.mp he
    simp only [handleErrorsGo, hcase]
    by_cases hext : (cfg.ignoreExternal && eh != tabHost) = true
    · have hk4 : keeps404 cfg ignored tabHost e = false := by
        simp only [keeps404.eq_def, hcase]
        simp [hext]
      have hks : keepsScript cfg tabHost e = false := by
        simp only [keepsScript.eq_def, hcase]
        simp [hext]
      rw [if_pos hext, ih acc hrest]
      simp [List.filter_cons, hk4, hks]
    · rw [if_neg hext]
      by_cases h404 : e.is404 = true
      · by_cases hign : (ignored.contains (getIgnoredUrlHash e.url)
            || isUrlIgnoredByType cfg e.url) = true
        · have hk4 : keeps404 cfg ignored tabHost e = false := by
            simp only [keeps404.eq_def, hcase, hign]
            simp
          have hks : keepsScript cfg tabHost e = false := by
            simp only [keepsScript.eq_def, hcase]
            simp [h404]
          rw [if_pos h404, if_pos hign, ih acc hrest]
          simp [List.filter_cons, hk4, hks]
        · rw [Bool.not_eq_true, Bool.or_eq_false_iff] at hign
          have hext' : (cfg.ignoreExternal && eh != tabHost) = false := by
            rw [Bool.not_eq_true] at hext
            exact hext
          have hnm : getIgnoredUrlHash e.url ∉ ignored := by
            simpa using hign.1
          have hk4 : keeps404 cfg ignored tabHost e = true := by
            simp only [keeps404.eq_def, hcase]
            simp [hext', h404, hnm, hign.2]
          have hks : keepsScript cfg tabHost e = false := by
            simp only [keepsScript.eq_def, hcase]
            simp [h404]
          rw [if_pos h404, if_neg (by simp [hnm, hign.2]), ih (fileNotFoundEntry e :: acc) hrest]
          simp [List.filter_cons, hk4, hks, List.append_assoc]
      · have hk4 : keeps404 cfg ignored tabHost e = false := by
          simp only [keeps404.eq_def, hcase]
          simp [h404]
        have hks : keepsScript cfg tabHost e = true := by
          simp only [keepsScript.eq_def, hcase]
          simp only [Bool.not_eq_true] at hext
          simp [hext, h404]
        rw [if_neg h404, ih (acc ++ [formatScriptErrorHtml cfg e]) hrest]
        simp [List.filter_cons, hk4, hks, List.append_assoc]

/-- C4 (amended): with `ignore404others = false` (the default keeps it
`true`, which suppresses the record — see the counterexample), an empty
ignored set and no prior suppression, the 404 for
`http://a.test/missing.png` surfaces as
`File not found: http://a.test/missing.png` (entity-escaped URL);
moreover, for every batch the handler's output consists of all surviving
404 entries (in reverse batch order, from `unshift`) followed by all
surviving script-error entries — every 404 entry appears before every
script-error entry of the same batch. -/
theorem fourOhFour_surfaces_amended :
    handleErrorsPopupErrors cfg404 [] "http://a.test/page" [rec404png]
      = some ["File not found: http://a.test/missing.png"]
    ∧ (∀ (cfg : Config) (ignored : List String) (tabUrl tabHost : String)
        (batch : List ErrorRecord),
        getBaseHostByUrl tabUrl = some tabHost →
        (∀ e ∈ batch, getBaseHostByUrl e.url ≠ none) →
        handleErrorsPopupErrors cfg ignored tabUrl batch
          = some (((batch.filter (keeps404 cfg ignored tabHost)).reverse.map
                fileNotFoundEntry)
              ++ (batch.filter (keepsScript cfg tabHost)).map
                (formatScriptErrorHtml cfg))) := by
  constructor
  · rfl
  · intro cfg ignored tabUrl tabHost batch hhost hall
    simp only [handleErrorsPopupErrors, hhost]
    rw [handleErrorsGo_spec cfg ignored tabHost batch [] hall]
    simp

/-- Witness for C4's amended theorem on a mixed batch: both 404 records
come out (in reverse order) ahead of the script entry. -/
theorem fourOhFour_surfaces_amended_witness :
    handleErrorsPopupErrors cfg404 [] "http://a.test/page"
        [recScript, rec404png, rec404css]
      = some ((([recScript, rec404png, rec404css].filter
            (keeps404 cfg404 [] "a.test")).reverse.map fileNotFoundEntry)
          ++ ([recScript, rec404png, rec404css].filter
            (keepsScript cfg404 "a.test")).map (formatScriptErrorHtml cfg404)) :=
  fourOhFour_surfaces_amended.2 cfg404 [] "http://a.test/page" "a.test"
    [recScript, rec404png, rec404css] rfl (by decide)
